import Mathlib

/-!
Verification of the delegation/streaming orchestration core of the
AI customer-support backend.

The development shallowly embeds the TypeScript source:

* `apps/api/src/tools/billing.tools.ts` — the billing actions
  (`checkRefundStatus`, `requestRefund`) over `Payment` records;
* `apps/api/src/agents/router.agent.ts` — `RouterAgent.route` and
  `RouterAgent.processMessage`;
* `base.agent.ts` — `BaseAgent.streamResponse`;
* `apps/api/src/services/chat.service.ts` — `ChatService.streamChat`;
* `conversation.service.ts` — the persistence operations
  (`createConversation`, `addMessage`, `getMessages`, `updateConversation`,
  `generateTitle`) over a Prisma database, modelled as an explicit `DB`
  value threaded through in state-passing style.

The external text-generation capability (the `ai` SDK's `generateText` /
`streamText`) is modelled by oracles: the router's single constrained call
is an `Except`-valued response (it either throws or returns a list of tool
calls), and a responder run is a `StreamOutcome` — the list of stream parts
the SDK delivers, the tool invocations its `onStepFinish` callback
accumulated, and an optional error raised after the listed parts.
Monetary amounts are modelled as `ℚ`; JavaScript string indexing is
modelled by Lean character counts.
-/

namespace Tiger

/-! ## Domain data: payments (billing.tools.ts, db/seed.ts) -/

/-- Prisma `PaymentStatus` enum. -/
inductive PaymentStatus
  | pending
  | completed
  | failed
  | refunded
  | partially_refunded
  deriving DecidableEq, Repr

/-- A `Payment` row, with the fields read by the billing tools. -/
structure Payment where
  invoiceNumber : String
  amount : ℚ
  status : PaymentStatus
  method : String
  refundAmount : Option ℚ
  refundReason : Option String
  deriving DecidableEq, Repr

/-- The `refundStatus` object built by `checkRefundStatus` (narrative
`message` string omitted). -/
structure RefundStatus where
  invoiceNumber : String
  originalAmount : ℚ
  paymentStatus : PaymentStatus
  hasRefund : Bool
  refundAmount : Option ℚ
  remainingBalance : Option ℚ
  refundEligible : Bool
  deriving DecidableEq, Repr

/-- Result of `checkRefundStatus.execute`. -/
inductive RefundStatusResult
  | notFound (message : String)
  | found (status : RefundStatus)
  deriving DecidableEq, Repr

/-- `checkRefundStatus.execute` from billing.tools.ts: `db.payment.findUnique`
on the invoice number, then the derived refund-status record. -/
def checkRefundStatus (db : List Payment) (invoiceNumber : String) :
    RefundStatusResult :=
  match db.find? (fun p => p.invoiceNumber == invoiceNumber) with
  | none => .notFound ("No invoice found with number " ++ invoiceNumber)
  | some payment =>
      let hasRefund :=
        payment.status == .refunded || payment.status == .partially_refunded
      .found
        { invoiceNumber := payment.invoiceNumber
          originalAmount := payment.amount
          paymentStatus := payment.status
          hasRefund := hasRefund
          refundAmount := payment.refundAmount
          remainingBalance :=
            if hasRefund then some (payment.amount - payment.refundAmount.getD 0)
            else none
          refundEligible := payment.status == .completed }

/-- Result of `requestRefund.execute`: the three failure shapes and the
simulated-refund success payload. -/
inductive RefundRequestResult
  | notFound (message : String)
  | notRefundable (currentStatus : PaymentStatus)
  | exceedsAmount
  | success (invoiceNumber : String) (originalAmount : ℚ) (refundAmount : ℚ)
      (isPartialRefund : Bool) (reason : String)
  deriving DecidableEq, Repr

/-- The `success` field of a `requestRefund` result. -/
def RefundRequestResult.isSuccess : RefundRequestResult → Bool
  | .success _ _ _ _ _ => true
  | _ => false

/-- `requestRefund.execute` from billing.tools.ts. The source only ever runs
`db.payment.findUnique`; the returned second component is the (unchanged)
payment table, making the absence of writes explicit. JavaScript's
`amount || payment.amount` treats a requested amount of `0` as absent. -/
def requestRefund (db : List Payment) (invoiceNumber : String)
    (amount : Option ℚ) (reason : String) : RefundRequestResult × List Payment :=
  match db.find? (fun p => p.invoiceNumber == invoiceNumber) with
  | none => (.notFound ("No invoice found with number " ++ invoiceNumber), db)
  | some payment =>
      if payment.status != .completed then
        (.notRefundable payment.status, db)
      else
        let refundAmount :=
          match amount with
          | none => payment.amount
          | some a => if a == 0 then payment.amount else a
        if refundAmount > payment.amount then
          (.exceedsAmount, db)
        else
          (.success payment.invoiceNumber payment.amount refundAmount
            (refundAmount < payment.amount) reason, db)

/-- The payment rows created by `db/seed.ts`. -/
def seedPayments : List Payment :=
  [ ⟨"INV-2024-001", 19997/100, .completed, "credit_card", none, none⟩,
    ⟨"INV-2024-002", 13998/100, .completed, "paypal", none, none⟩,
    ⟨"INV-2024-003", 15999/100, .pending, "credit_card", none, none⟩,
    ⟨"INV-2024-SUB-001", 2999/100, .completed, "credit_card", none, none⟩,
    ⟨"INV-2024-004", 7999/100, .refunded, "credit_card", some (7999/100),
      some "Order cancelled by customer"⟩,
    ⟨"INV-2024-005", 4999/100, .partially_refunded, "credit_card", some 25,
      some "Partial refund for service issue"⟩ ]

/-! ## Agents and events (base.agent.ts, router.agent.ts) -/

/-- The responder categories of the routing schema
(`z.enum(['support', 'order', 'billing'])`). -/
inductive AgentType
  | support
  | order
  | billing
  deriving DecidableEq, Repr

/-- The `name` field of each agent's `AgentConfig`. -/
def agentName : AgentType → String
  | .support => "Support Agent"
  | .order => "Order Agent"
  | .billing => "Billing Agent"

/-- Prisma `MessageRole`. -/
inductive Role
  | user
  | assistant
  | system
  | tool
  deriving DecidableEq, Repr

/-- A `CoreMessage` handed to the text-generation capability. -/
structure CoreMessage where
  role : Role
  content : String
  deriving DecidableEq, Repr

/-- The structural routing decision (`routingSchema`). -/
structure RoutingResult where
  agent : AgentType
  confidence : ℚ
  reasoning : String
  deriving DecidableEq, Repr

/-- One entry of `result.toolCalls` from the router's `generateText` call. -/
structure RouteToolCall where
  toolName : String
  args : RoutingResult
  deriving DecidableEq, Repr

/-- The outcome of the router's single constrained `generateText` call: either
a raised error (message) or the returned tool-call list. -/
abbrev RouteOracle := Except String (List RouteToolCall)

/-- `AgentContext` from base.agent.ts. -/
structure AgentContext where
  userId : String
  conversationId : Nat
  messages : List CoreMessage
  deriving DecidableEq, Repr

/-- A recorded tool invocation payload as pushed onto the `toolCalls`
accumulators (the source stores these as untyped JSON; only the `tool` name
is ever inspected again, so the rest is kept as one opaque field). -/
structure ToolInvocation where
  tool : String
  info : String
  deriving DecidableEq, Repr

/-- One part of `streamText(...).fullStream`; `other` stands for the part
kinds (step boundaries, finish events) the loop ignores. -/
inductive StreamPart
  | toolCall (tool : String) (args : String)
  | toolResult (tool : String) (result : String)
  | textDelta (delta : String)
  | other
  deriving DecidableEq, Repr

/-- A responder run as delivered by the external SDK: the stream parts, the
tool invocations accumulated by the `onStepFinish` callback, and `some e`
when the stream raises error `e` after the listed parts. -/
structure StreamOutcome where
  parts : List StreamPart
  stepToolCalls : List ToolInvocation
  fails : Option String
  deriving DecidableEq, Repr

/-- The discriminated `{type, data}` events of the pipeline. The two `done`
shapes (a responder's `done {fullText, toolCalls}` and the orchestrator's
terminal `done {conversationId, messageId, agentType, fullText}`) share the
wire type `done`; see `Event.etype`. -/
inductive Event
  | thinking (message : String)
  | thinkingNewConversation (message : String) (conversationId : Nat)
  | routing (agent : AgentType) (agentName : String) (reason : String)
      (confidence : ℚ)
  | toolCall (tool : String) (args : String)
  | toolResult (tool : String) (result : String)
  | textDelta (delta : String)
  | agentDone (fullText : String) (toolCalls : List ToolInvocation)
  | finalDone (conversationId : Nat) (messageId : Nat) (agentType : AgentType)
      (fullText : String)
  | error (message : String)
  deriving DecidableEq, Repr

/-- The wire `type` tag of a `StreamChunk`. -/
inductive EventType
  | thinking
  | routing
  | tool_call
  | tool_result
  | text_delta
  | done
  | error
  deriving DecidableEq, Repr

/-- The `type` field an event carries on the wire. -/
def Event.etype : Event → EventType
  | .thinking _ => .thinking
  | .thinkingNewConversation _ _ => .thinking
  | .routing _ _ _ _ => .routing
  | .toolCall _ _ => .tool_call
  | .toolResult _ _ => .tool_result
  | .textDelta _ => .text_delta
  | .agentDone _ _ => .done
  | .finalDone _ _ _ _ => .done
  | .error _ => .error

/-- `RouterAgent.route`. The prompt text built from the last user message and
the recent-assistant summary only feeds the oracle, whose response `oracle`
already is; the control flow is: no user message → deterministic default
(confidence 1); raised call → propagated; first tool call named `route` →
its arguments (`getAgent` is total on the three categories, so
`getAgent(...) || supportAgent` is the decided agent itself); anything
else → the 0.5-confidence support fallback. -/
def route (msgs : List CoreMessage) (oracle : RouteOracle) :
    Except String (AgentType × RoutingResult) :=
  match msgs.reverse.find? (fun m => m.role == Role.user) with
  | none =>
      .ok (.support, ⟨.support, 1, "No user message found, defaulting to support"⟩)
  | some _ =>
      match oracle with
      | .error e => .error e
      | .ok toolCalls =>
          match toolCalls.head? with
          | some tc =>
              if tc.toolName == "route" then .ok (tc.args.agent, tc.args)
              else
                .ok (.support,
                  ⟨.support, 1/2, "Could not determine intent, defaulting to support"⟩)
          | none =>
              .ok (.support,
                ⟨.support, 1/2, "Could not determine intent, defaulting to support"⟩)

/-- The event-emitting loop over `fullStream` inside `BaseAgent.streamResponse`,
with the `fullText` accumulator threaded explicitly: returns the emitted
events and the final accumulator value. -/
def streamLoop : List StreamPart → String → List Event × String
  | [], acc => ([], acc)
  | .toolCall t a :: ps, acc =>
      let r := streamLoop ps acc
      (Event.toolCall t a :: r.1, r.2)
  | .toolResult t v :: ps, acc =>
      let r := streamLoop ps acc
      (Event.toolResult t v :: r.1, r.2)
  | .textDelta d :: ps, acc =>
      let r := streamLoop ps (acc ++ d)
      (Event.textDelta d :: r.1, r.2)
  | .other :: ps, acc => streamLoop ps acc

/-- `BaseAgent.streamResponse` on a run delivered as `o`: the events it
yields, and `some e` when the underlying stream raised `e` (so the final
`done` event was not reached and the exception propagates to the caller). -/
def streamResponse (o : StreamOutcome) : List Event × Option String :=
  let r := streamLoop o.parts ""
  match o.fails with
  | some e => (r.1, some e)
  | none => (r.1 ++ [Event.agentDone r.2 o.stepToolCalls], none)

/-- The events the Delegator relays from `agent.streamResponse(context)`:
forwarded verbatim, with an exception converted by `processMessage`'s
`catch` into a terminal `error` event. -/
def responderEvents (o : StreamOutcome) : List Event :=
  match streamResponse o with
  | (evs, none) => evs
  | (evs, some e) => evs ++ [Event.error e]

/-- `RouterAgent.processMessage`: thinking, route (errors caught → terminal
`error` event), routing, thinking, then the selected responder's events
(with a responder exception also caught → terminal `error` event). -/
def processMessage (ctx : AgentContext) (routeO : RouteOracle)
    (streamO : AgentType → StreamOutcome) : List Event :=
  Event.thinking "Analyzing your request..." ::
    match route ctx.messages routeO with
    | .error e => [Event.error e]
    | .ok (agent, routing) =>
        Event.routing agent (agentName agent) routing.reasoning routing.confidence ::
        Event.thinking ("Connecting you with " ++ agentName agent ++ "...") ::
        responderEvents (streamO agent)

/-! ## Persistence (conversation.service.ts over Prisma)

The Prisma database is modelled as an explicit value: the conversation and
message tables in creation order (Prisma's `orderBy createdAt asc` is list
order), plus a counter supplying fresh row identities. -/

/-- A `Conversation` row (summary/metadata/timestamps omitted: the embedded
claims never read them). -/
structure Conversation where
  id : Nat
  userId : String
  title : Option String
  deriving DecidableEq, Repr

/-- A `Message` row. -/
structure StoredMessage where
  id : Nat
  conversationId : Nat
  role : Role
  content : String
  agentType : Option AgentType
  toolCalls : Option (List ToolInvocation)
  deriving DecidableEq, Repr

/-- The database state. -/
structure DB where
  conversations : List Conversation
  messages : List StoredMessage
  nextId : Nat
  deriving DecidableEq, Repr

/-- `ConversationService.createConversation`. -/
def createConversation (db : DB) (userId : String) (title : Option String) :
    Conversation × DB :=
  let conv : Conversation := ⟨db.nextId, userId, title⟩
  (conv,
    { db with
        conversations := db.conversations ++ [conv]
        nextId := db.nextId + 1 })

/-- `ConversationService.addMessage`: create the message row (the follow-up
`conversation.update` only refreshes `updatedAt`, which is not modelled). -/
def addMessage (db : DB) (conversationId : Nat) (role : Role) (content : String)
    (agentType : Option AgentType) (toolCalls : Option (List ToolInvocation)) :
    StoredMessage × DB :=
  let msg : StoredMessage :=
    ⟨db.nextId, conversationId, role, content, agentType, toolCalls⟩
  (msg, { db with messages := db.messages ++ [msg], nextId := db.nextId + 1 })

/-- `ConversationService.getMessages` as `streamChat` calls it (no options):
the conversation's messages in creation order, `take: 50`. -/
def getMessages (db : DB) (conversationId : Nat) : List StoredMessage :=
  (db.messages.filter (fun m => m.conversationId == conversationId)).take 50

/-- `ConversationService.updateConversation` restricted to the `{ title }`
payload `generateTitle` passes; a missing conversation makes the Prisma
update throw, which the source catches and turns into a no-op `null`. -/
def updateConversation (db : DB) (conversationId : Nat) (title : String) : DB :=
  { db with
      conversations :=
        db.conversations.map fun c =>
          if c.id == conversationId then { c with title := some title } else c }

/-- `ConversationService.generateTitle`: first two messages of the
conversation; empty table or no user message among them → the fixed string
and no write; otherwise the ≤50-characters-verbatim / 47-characters-plus-
ellipsis truncation of the first user message, persisted as the title. -/
def generateTitle (db : DB) (conversationId : Nat) : String × DB :=
  let messages :=
    (db.messages.filter (fun m => m.conversationId == conversationId)).take 2
  if messages.length == 0 then ("New Conversation", db)
  else
    match messages.find? (fun m => m.role == Role.user) with
    | none => ("New Conversation", db)
    | some firstUserMessage =>
        let content := firstUserMessage.content
        let title :=
          if content.length > 50 then content.take 47 ++ "..." else content
        (title, updateConversation db conversationId title)

/-! ## Session Orchestrator (chat.service.ts) -/

/-- `ChatInput`. -/
structure ChatInput where
  userId : String
  conversationId : Option Nat
  message : String
  deriving DecidableEq, Repr

/-- The mutable locals of `streamChat`'s relay loop. -/
structure LoopState where
  fullResponse : String
  agentType : AgentType
  toolCalls : List ToolInvocation
  deriving DecidableEq, Repr

/-- One iteration of `streamChat`'s `for await` body, updating the locals
from the observed chunk. On a responder `done`, JavaScript's
`doneData.fullText || fullResponse` keeps the accumulator only when the
reported full text is the (falsy) empty string, and
`doneData.toolCalls || toolCalls` always takes the payload's list, an array
being truthy even when empty. -/
def consumeChunk (st : LoopState) (e : Event) : LoopState :=
  match e with
  | .routing a _ _ _ => { st with agentType := a }
  | .textDelta d => { st with fullResponse := st.fullResponse ++ d }
  | .toolCall t a => { st with toolCalls := st.toolCalls ++ [⟨t, a⟩] }
  | .toolResult t v => { st with toolCalls := st.toolCalls ++ [⟨t, v⟩] }
  | .agentDone ft tcs =>
      { st with
          fullResponse := if ft == "" then st.fullResponse else ft
          toolCalls := tcs }
  | _ => st

/-- `ChatService.streamChat`: create the conversation when no identifier was
given (announcing it with a `thinking` event), persist the user message,
load the history, relay every Delegator chunk while folding the locals,
persist the assistant message, derive a title when the pre-assistant
history length was exactly 1, and emit the orchestrator's own final `done`
event. Returns the full emitted event sequence and the final database. -/
def streamChat (db : DB) (input : ChatInput) (routeO : RouteOracle)
    (streamO : AgentType → StreamOutcome) : List Event × DB :=
  let step1 :=
    match input.conversationId with
    | none =>
        let r := createConversation db input.userId none
        (([Event.thinkingNewConversation "Starting new conversation..." r.1.id] :
            List Event), r.1.id, r.2)
    | some cid => ([], cid, db)
  let preEvents := step1.1
  let cid := step1.2.1
  let db1 := step1.2.2
  let db2 := (addMessage db1 cid Role.user input.message none none).2
  let history := getMessages db2 cid
  let messages : List CoreMessage := history.map fun m => ⟨m.role, m.content⟩
  let chunks := processMessage ⟨input.userId, cid, messages⟩ routeO streamO
  let st := chunks.foldl consumeChunk ⟨"", .support, []⟩
  let saved :=
    addMessage db2 cid Role.assistant st.fullResponse (some st.agentType)
      (if (st.toolCalls.filter (fun t => t.tool != "")).length > 0 then
        some st.toolCalls
      else none)
  let savedMessage := saved.1
  let db3 := saved.2
  let db4 := if history.length == 1 then (generateTitle db3 cid).2 else db3
  (preEvents ++ chunks ++
      [Event.finalDone cid savedMessage.id st.agentType st.fullResponse],
    db4)

/-! ## Observation helpers for the stated properties -/

/-- Concatenation, in emission order, of the `delta` payloads of the
`text_delta` events of a sequence. -/
def deltasOf : List Event → String
  | [] => ""
  | .textDelta d :: es => d ++ deltasOf es
  | .thinking _ :: es => deltasOf es
  | .thinkingNewConversation _ _ :: es => deltasOf es
  | .routing _ _ _ _ :: es => deltasOf es
  | .toolCall _ _ :: es => deltasOf es
  | .toolResult _ _ :: es => deltasOf es
  | .agentDone _ _ :: es => deltasOf es
  | .finalDone _ _ _ _ :: es => deltasOf es
  | .error _ :: es => deltasOf es

/-- Whether an event is a `routing` event. -/
def isRoutingEvent (e : Event) : Bool := e.etype == EventType.routing

/-- Whether an event is a `tool_call` or `text_delta` event. -/
def isWorkEvent (e : Event) : Bool :=
  e.etype == EventType.tool_call || e.etype == EventType.text_delta

/-! ## Helper lemmas -/

theorem streamLoop_shape (ps : List StreamPart) (acc : String) :
    ∀ e ∈ (streamLoop ps acc).1,
      e.etype = EventType.tool_call ∨ e.etype = EventType.tool_result ∨
        e.etype = EventType.text_delta := by
  induction ps generalizing acc with
  | nil => intro e he; simp [streamLoop] at he
  | cons p ps ih =>
      intro e he
      cases p with
      | toolCall t a =>
          rcases List.mem_cons.mp he with h | h
          · subst h; exact Or.inl rfl
          · exact ih acc e h
      | toolResult t v =>
          rcases List.mem_cons.mp he with h | h
          · subst h; exact Or.inr (Or.inl rfl)
          · exact ih acc e h
      | textDelta d =>
          rcases List.mem_cons.mp he with h | h
          · subst h; exact Or.inr (Or.inr rfl)
          · exact ih (acc ++ d) e h
      | other => exact ih acc e he

theorem streamLoop_acc (ps : List StreamPart) (acc : String) :
    (streamLoop ps acc).2 = acc ++ deltasOf (streamLoop ps acc).1 := by
  induction ps generalizing acc with
  | nil => simp [streamLoop, deltasOf, String.append_empty]
  | cons p ps ih =>
      cases p with
      | toolCall t a => simpa [streamLoop, deltasOf] using ih acc
      | toolResult t v => simpa [streamLoop, deltasOf] using ih acc
      | textDelta d =>
          have h := ih (acc ++ d)
          simpa [streamLoop, deltasOf, String.append_assoc] using h
      | other => simpa [streamLoop, deltasOf] using ih acc

theorem deltasOf_append (l1 l2 : List Event) :
    deltasOf (l1 ++ l2) = deltasOf l1 ++ deltasOf l2 := by
  induction l1 with
  | nil => simp [deltasOf, String.empty_append]
  | cons e l ih => cases e <;> simp [deltasOf, ih, String.append_assoc]

/-! ## C3: refund status reporting -/

/-- C3 counterexample: for the seeded fully refunded invoice INV-2024-004,
`checkRefundStatus` reports `hasRefund: true` together with a non-null
`remainingBalance` (of 0) although the payment's status is `refunded`, not
the partial-refund variant — refuting the claim that a non-null
`remainingBalance` accompanies `hasRefund: true` only for
`partially_refunded` payments. -/
theorem checkRefundStatus_counterexample :
    checkRefundStatus seedPayments "INV-2024-004" =
        .found ⟨"INV-2024-004", 7999/100, .refunded, true, some (7999/100),
          some 0, false⟩ ∧
      (some (0 : ℚ) ≠ (none : Option ℚ)) ∧
      PaymentStatus.refunded ≠ PaymentStatus.partially_refunded := by
  refine ⟨?_, by simp, by decide⟩
  simp [checkRefundStatus, seedPayments, List.find?]

/-- C3 amended: `checkRefundStatus` reports `hasRefund: true` together with a
non-null `remainingBalance` exactly when the payment's status is `refunded`
or `partially_refunded` (not only for the partial variant); the balance is
`amount - refundAmount`, so for a fully refunded payment whose recorded
refund equals the original amount (as in the seeded data) it is exactly 0. -/
theorem checkRefundStatus_remaining_balance (db : List Payment) (inv : String)
    (p : Payment) (s : RefundStatus)
    (hp : db.find? (fun q => q.invoiceNumber == inv) = some p)
    (hs : checkRefundStatus db inv = .found s) :
    ((s.hasRefund = true ∧ s.remainingBalance ≠ none) ↔
      (p.status = .refunded ∨ p.status = .partially_refunded)) ∧
    (p.status = .refunded → p.refundAmount = some p.amount →
      s.remainingBalance = some 0) := by
  unfold checkRefundStatus at hs
  rw [hp] at hs
  simp only [RefundStatusResult.found.injEq] at hs
  subst hs
  constructor
  · cases h : p.status <;> simp [h]
  · intro h1 h2
    simp [h1, h2]

/-- Witness for `checkRefundStatus_remaining_balance`, at the seeded
partially refunded invoice INV-2024-005. -/
theorem checkRefundStatus_remaining_balance_witness :
    ∃ s, checkRefundStatus seedPayments "INV-2024-005" = .found s ∧
      s.hasRefund = true ∧ s.remainingBalance ≠ none := by
  refine ⟨⟨"INV-2024-005", 4999/100, .partially_refunded, true, some 25,
    some (4999/100 - 25), false⟩, ?_, ?_⟩
  · simp [checkRefundStatus, seedPayments, List.find?]
  · have h := checkRefundStatus_remaining_balance seedPayments "INV-2024-005"
      ⟨"INV-2024-005", 4999/100, .partially_refunded, "credit_card", some 25,
        some "Partial refund for service issue"⟩
      ⟨"INV-2024-005", 4999/100, .partially_refunded, true, some 25,
        some (4999/100 - 25), false⟩
      (by simp [seedPayments, List.find?]) (by simp [checkRefundStatus, seedPayments, List.find?])
    exact ⟨(h.1.mpr (Or.inr rfl)).1, (h.1.mpr (Or.inr rfl)).2⟩

/-! ## C8: requestRefund preconditions -/

/-- C8: `requestRefund` never mutates the payment table, and it returns a
failure outcome whenever the target payment exists with a status other than
`completed`, or the (positive) requested amount exceeds the original
payment amount. -/
theorem requestRefund_preconditions (db : List Payment) (inv : String)
    (amt : Option ℚ) (reason : String) :
    (requestRefund db inv amt reason).2 = db ∧
    ∀ p, db.find? (fun q => q.invoiceNumber == inv) = some p →
      (p.status ≠ .completed →
        (requestRefund db inv amt reason).1.isSuccess = false) ∧
      ∀ a, amt = some a → 0 < a → p.amount < a →
        (requestRefund db inv amt reason).1.isSuccess = false := by
  constructor
  · unfold requestRefund
    repeat first | rfl | split | dsimp only
  · intro p hp
    constructor
    · intro hst
      simp only [requestRefund, hp]
      rw [if_pos (by simpa using hst)]
      rfl
    · intro a ha hpos hgt
      subst ha
      simp only [requestRefund, hp]
      by_cases hst : p.status = .completed
      · rw [if_neg (by simp [hst])]
        have hne : (a == 0) = false := by
          simp only [beq_eq_false_iff_ne, ne_eq]
          rintro rfl
          exact lt_irrefl 0 hpos
        simp [hne, hgt, RefundRequestResult.isSuccess]
      · rw [if_pos (by simpa using hst)]
        rfl

/-- Witness for `requestRefund_preconditions`: refunding the seeded pending
invoice INV-2024-003 fails and leaves the table unchanged. -/
theorem requestRefund_preconditions_witness :
    (requestRefund seedPayments "INV-2024-003" none "duplicate charge").2 =
        seedPayments ∧
      (requestRefund seedPayments "INV-2024-003" none
          "duplicate charge").1.isSuccess = false := by
  have h := requestRefund_preconditions seedPayments "INV-2024-003" none
    "duplicate charge"
  refine ⟨h.1, ?_⟩
  exact (h.2 ⟨"INV-2024-003", 15999/100, .pending, "credit_card", none, none⟩
    (by simp [seedPayments, List.find?])).1 (by decide)

/-! ## C6, C7: classification fallbacks -/

/-- C6: with no user message in the history, `route` returns the support
default with confidence exactly 1 and the fixed rationale. The oracle
argument is universally quantified and unused on this path: the
text-generation capability is never invoked. -/
theorem route_no_user_default (msgs : List CoreMessage) (oracle : RouteOracle)
    (h : ∀ m ∈ msgs, m.role ≠ Role.user) :
    route msgs oracle =
      .ok (.support,
        ⟨.support, 1, "No user message found, defaulting to support"⟩) := by
  unfold route
  have hf : msgs.reverse.find? (fun m => m.role == Role.user) = none := by
    rw [List.find?_eq_none]
    intro m hm
    simpa using h m (List.mem_reverse.mp hm)
  rw [hf]

/-- Witness for `route_no_user_default`, on the empty history with a raising
oracle. -/
theorem route_no_user_default_witness :
    route [] (.error "capability offline") =
      .ok (.support,
        ⟨.support, 1, "No user message found, defaulting to support"⟩) :=
  route_no_user_default [] (.error "capability offline")
    (fun m hm => absurd hm (List.not_mem_nil m))

/-- C7: when the constrained call returns without a `route` tool call (an
empty tool-call list or a first tool call with another name), the Delegator
does not raise: `processMessage` still emits the `routing` event with
confidence 0.5 and the default-category rationale, and proceeds with the
support responder's event stream. -/
theorem processMessage_malformed_fallback (ctx : AgentContext)
    (tcs : List RouteToolCall) (streamO : AgentType → StreamOutcome)
    (m : CoreMessage)
    (hm : ctx.messages.reverse.find? (fun x => x.role == Role.user) = some m)
    (htc : tcs.head?.map RouteToolCall.toolName ≠ some "route") :
    processMessage ctx (.ok tcs) streamO =
      Event.thinking "Analyzing your request..." ::
      Event.routing .support "Support Agent"
        "Could not determine intent, defaulting to support" (1/2) ::
      Event.thinking "Connecting you with Support Agent..." ::
      responderEvents (streamO .support) := by
  have hroute : route ctx.messages (.ok tcs) =
      .ok (.support,
        ⟨.support, 1/2, "Could not determine intent, defaulting to support"⟩) := by
    rcases htcs : tcs.head? with _ | tc
    · simp [route, hm, htcs]
    · have hb : (tc.toolName == "route") = false := by
        rw [htcs] at htc
        simpa using htc
      simp [route, hm, htcs, hb]
  simp [processMessage, hroute, agentName]

/-- Witness for `processMessage_malformed_fallback`: a one-user-message
context with an empty tool-call response. -/
theorem processMessage_malformed_fallback_witness :
    processMessage ⟨"user_demo", 0, [⟨Role.user, "hello"⟩]⟩ (.ok [])
        (fun _ => ⟨[], [], none⟩) =
      [Event.thinking "Analyzing your request...",
       Event.routing .support "Support Agent"
         "Could not determine intent, defaulting to support" (1/2),
       Event.thinking "Connecting you with Support Agent...",
       Event.agentDone "" []] := by
  rw [processMessage_malformed_fallback ⟨"user_demo", 0, [⟨Role.user, "hello"⟩]⟩
    [] (fun _ => ⟨[], [], none⟩) ⟨Role.user, "hello"⟩ rfl (by simp)]
  rfl

/-! ## C5: text deltas concatenate to the done full text -/

/-- C5: on a responder run whose underlying stream does not fail,
`streamResponse` emits exactly one `done`-typed event, it is the last event,
and its `fullText` payload equals the concatenation, in emission order, of
the `delta` payloads of the `text_delta` events. -/
theorem streamResponse_full_text (o : StreamOutcome) (h : o.fails = none) :
    ((streamResponse o).1.filter
        (fun e => e.etype == EventType.done)).length = 1 ∧
    (streamResponse o).1.getLast? =
      some (Event.agentDone (deltasOf (streamResponse o).1) o.stepToolCalls) := by
  have hsr : streamResponse o =
      ((streamLoop o.parts "").1 ++
        [Event.agentDone (streamLoop o.parts "").2 o.stepToolCalls], none) := by
    unfold streamResponse
    rw [h]
  have hnone : (streamLoop o.parts "").1.filter
      (fun e => e.etype == EventType.done) = [] := by
    rw [List.filter_eq_nil_iff]
    intro e he
    rcases streamLoop_shape o.parts "" e he with h1 | h1 | h1 <;> simp [h1]
  constructor
  · rw [hsr]
    dsimp only
    rw [List.filter_append, hnone]
    simp [Event.etype]
  · rw [hsr]
    dsimp only
    rw [List.getLast?_concat, deltasOf_append, streamLoop_acc o.parts ""]
    simp [deltasOf, String.empty_append, String.append_empty]

/-- Witness for `streamResponse_full_text`, on a concrete three-part stream
(two deltas around a tool call). -/
theorem streamResponse_full_text_witness :
    ((streamResponse ⟨[.textDelta "Hel", .toolCall "searchFAQs" "q",
          .textDelta "lo"], [⟨"searchFAQs", "q"⟩], none⟩).1.filter
        (fun e => e.etype == EventType.done)).length = 1 ∧
    (streamResponse ⟨[.textDelta "Hel", .toolCall "searchFAQs" "q",
          .textDelta "lo"], [⟨"searchFAQs", "q"⟩], none⟩).1.getLast? =
      some (Event.agentDone
        (deltasOf (streamResponse ⟨[.textDelta "Hel", .toolCall "searchFAQs" "q",
          .textDelta "lo"], [⟨"searchFAQs", "q"⟩], none⟩).1)
        [⟨"searchFAQs", "q"⟩]) :=
  streamResponse_full_text
    ⟨[.textDelta "Hel", .toolCall "searchFAQs" "q", .textDelta "lo"],
      [⟨"searchFAQs", "q"⟩], none⟩ rfl

/-! ## C4: the routing event is unique and precedes tool_call/text_delta -/

theorem responderEvents_no_routing (o : StreamOutcome) :
    ∀ e ∈ responderEvents o, isRoutingEvent e = false := by
  intro e he
  unfold responderEvents streamResponse at he
  cases hf : o.fails with
  | none =>
      rw [hf] at he
      simp only [List.mem_append, List.mem_singleton] at he
      rcases he with he | he
      · rcases streamLoop_shape o.parts "" e he with h1 | h1 | h1 <;>
          simp [isRoutingEvent, h1]
      · subst he; rfl
  | some msg =>
      rw [hf] at he
      simp only [List.mem_append, List.mem_singleton] at he
      rcases he with he | he
      · rcases streamLoop_shape o.parts "" e he with h1 | h1 | h1 <;>
          simp [isRoutingEvent, h1]
      · subst he; rfl

theorem routing_index_eq_one (a b c : Event) (rest : List Event)
    (ha : isRoutingEvent a = false) (hc : isRoutingEvent c = false)
    (hrest : ∀ e ∈ rest, isRoutingEvent e = false)
    (i : Nat) (hi : i < (a :: b :: c :: rest).length)
    (hri : isRoutingEvent ((a :: b :: c :: rest).get ⟨i, hi⟩) = true) :
    i = 1 := by
  match i, hi with
  | 0, _ => exact absurd hri (by simp [ha])
  | 1, _ => rfl
  | 2, _ => exact absurd hri (by simp [hc])
  | (n + 3), hb =>
      have hn : n < rest.length := by simpa using hb
      have hm : (a :: b :: c :: rest).get ⟨n + 3, hb⟩ = rest.get ⟨n, hn⟩ := rfl
      rw [hm, hrest _ (rest.get_mem n hn)] at hri
      exact absurd hri (by simp)

theorem work_index_ge_three (a b c : Event) (rest : List Event)
    (ha : isWorkEvent a = false) (hb : isWorkEvent b = false)
    (hc : isWorkEvent c = false)
    (j : Nat) (hj : j < (a :: b :: c :: rest).length)
    (hwj : isWorkEvent ((a :: b :: c :: rest).get ⟨j, hj⟩) = true) :
    3 ≤ j := by
  match j, hj with
  | 0, _ => exact absurd hwj (by simp [ha])
  | 1, _ => exact absurd hwj (by simp [hb])
  | 2, _ => exact absurd hwj (by simp [hc])
  | (n + 3), _ => omega

/-- C4: a `processMessage` event sequence contains at most one `routing`
event, and a `routing` event always precedes every `tool_call` and
`text_delta` event. -/
theorem processMessage_routing_first (ctx : AgentContext) (routeO : RouteOracle)
    (streamO : AgentType → StreamOutcome) (L : List Event)
    (hL : processMessage ctx routeO streamO = L) (i j : Nat)
    (hi : i < L.length) (hj : j < L.length)
    (hri : isRoutingEvent (L.get ⟨i, hi⟩) = true)
    (hwj : isWorkEvent (L.get ⟨j, hj⟩) = true) :
    i < j ∧ (L.filter isRoutingEvent).length ≤ 1 := by
  rcases hreq : route ctx.messages routeO with e | p
  · have hLeq : L = [Event.thinking "Analyzing your request...", Event.error e] := by
      rw [← hL]; unfold processMessage; rw [hreq]
    subst hLeq
    match i, hi with
    | 0, _ => exact Bool.noConfusion hri
    | 1, _ => exact Bool.noConfusion hri
  · obtain ⟨agent, routing⟩ := p
    have hLeq : L = Event.thinking "Analyzing your request..." ::
        Event.routing agent (agentName agent) routing.reasoning
          routing.confidence ::
        Event.thinking ("Connecting you with " ++ agentName agent ++ "...") ::
        responderEvents (streamO agent) := by
      rw [← hL]; unfold processMessage; rw [hreq]
    subst hLeq
    constructor
    · have hi1 : i = 1 :=
        routing_index_eq_one (Event.thinking "Analyzing your request...")
          (Event.routing agent (agentName agent) routing.reasoning
            routing.confidence)
          (Event.thinking ("Connecting you with " ++ agentName agent ++ "..."))
          (responderEvents (streamO agent)) rfl rfl
          (responderEvents_no_routing (streamO agent)) i hi hri
      have hj3 : 3 ≤ j :=
        work_index_ge_three (Event.thinking "Analyzing your request...")
          (Event.routing agent (agentName agent) routing.reasoning
            routing.confidence)
          (Event.thinking ("Connecting you with " ++ agentName agent ++ "..."))
          (responderEvents (streamO agent)) rfl rfl rfl j hj hwj
      omega
    · have hfr : (responderEvents (streamO agent)).filter isRoutingEvent = [] :=
        List.filter_eq_nil_iff.mpr fun e he => by
          simp [responderEvents_no_routing (streamO agent) e he]
      have e1 : (EventType.thinking == EventType.routing) = false := rfl
      have e2 : (EventType.routing == EventType.routing) = true := rfl
      simp [List.filter, isRoutingEvent, Event.etype, hfr, e1, e2]

/-- Witness for `processMessage_routing_first`: a run routed to the order
responder, with the routing event at index 1 and a text delta at index 3. -/
theorem processMessage_routing_first_witness :
    (1 : Nat) < 3 ∧
      (([Event.thinking "Analyzing your request...",
          Event.routing .order "Order Agent" "order intent" 1,
          Event.thinking "Connecting you with Order Agent...",
          Event.textDelta "Sure",
          Event.agentDone "Sure" []]).filter isRoutingEvent).length ≤ 1 :=
  processMessage_routing_first ⟨"u", 0, [⟨Role.user, "track my order"⟩]⟩
    (.ok [⟨"route", ⟨.order, 1, "order intent"⟩⟩])
    (fun _ => ⟨[.textDelta "Sure"], [], none⟩)
    [Event.thinking "Analyzing your request...",
      Event.routing .order "Order Agent" "order intent" 1,
      Event.thinking "Connecting you with Order Agent...",
      Event.textDelta "Sure",
      Event.agentDone "Sure" []]
    rfl 1 3 (by decide) (by decide) (by decide) (by decide)

/-! ## C10: generateTitle without a user message -/

/-- C10: for a conversation with no stored messages, or none with the user
role, `generateTitle` returns the fixed string and leaves the database (in
particular the stored title) unchanged. -/
theorem generateTitle_no_user (db : DB) (cid : Nat)
    (h : ∀ m ∈ db.messages, m.conversationId = cid → m.role ≠ Role.user) :
    generateTitle db cid = ("New Conversation", db) := by
  simp only [generateTitle]
  have hfind : ((db.messages.filter
      (fun m => m.conversationId == cid)).take 2).find?
        (fun m => m.role == Role.user) = none := by
    rw [List.find?_eq_none]
    intro m hm
    have hmem := List.mem_of_mem_take hm
    have h1 := (List.mem_filter.mp hmem).1
    have h2 : m.conversationId = cid := by
      simpa using (List.mem_filter.mp hmem).2
    simpa using h m h1 h2
  by_cases h0 : (((db.messages.filter
      (fun m => m.conversationId == cid)).take 2).length == 0) = true
  · rw [if_pos h0]
  · rw [if_neg h0, hfind]

/-- Witness for `generateTitle_no_user`: a conversation holding only an
assistant message. -/
theorem generateTitle_no_user_witness :
    generateTitle
        ⟨[⟨0, "user_demo", none⟩],
          [⟨1, 0, Role.assistant, "Hello! How can I help?", some .support, none⟩],
          2⟩ 0 =
      ("New Conversation",
        ⟨[⟨0, "user_demo", none⟩],
          [⟨1, 0, Role.assistant, "Hello! How can I help?", some .support, none⟩],
          2⟩) :=
  generateTitle_no_user _ 0 (by decide)

/-! ## C9: title derivation on the first completed exchange -/

theorem find?_map_set_title (l : List Conversation) (cid : Nat) (t : String) :
    (l.map fun c => if c.id == cid then { c with title := some t } else c).find?
        (fun x => x.id == cid) =
      (l.find? (fun x => x.id == cid)).map
        (fun c => { c with title := some t }) := by
  induction l with
  | nil => rfl
  | cons a l ih =>
      by_cases h : (a.id == cid) = true
      · simp [List.find?, h]
      · simp only [List.map_cons, List.find?]
        rw [if_neg h]
        simp only [h]
        exact ih

/-- C9: running `streamChat` against an existing conversation derives and
persists a title exactly when the history length was exactly 1 immediately
before the assistant append (equivalently: the conversation had no stored
messages before this request), and the persisted title is the first user
message verbatim when its length is at most 50 characters, else its first
47 characters followed by an ellipsis marker. -/
theorem streamChat_title_first_exchange (db : DB) (input : ChatInput)
    (routeO : RouteOracle) (streamO : AgentType → StreamOutcome)
    (cid : Nat) (c : Conversation)
    (hc : input.conversationId = some cid)
    (hfind : db.conversations.find? (fun x => x.id == cid) = some c) :
    (streamChat db input routeO streamO).2.conversations.find?
        (fun x => x.id == cid) =
      some (if (db.messages.filter (fun m => m.conversationId == cid)).length = 0
        then { c with title := some (if input.message.length > 50
          then input.message.take 47 ++ "..." else input.message) }
        else c) := by
  simp only [streamChat, hc, addMessage, getMessages]
  set u : StoredMessage := ⟨db.nextId, cid, Role.user, input.message, none, none⟩
    with hu
  by_cases hk : (db.messages.filter (fun m => m.conversationId == cid)).length = 0
  · have hnil : db.messages.filter (fun m => m.conversationId == cid) = [] :=
      List.length_eq_zero.mp hk
    have hfl : List.filter (fun m => m.conversationId == cid)
        (db.messages ++ [u]) = [u] := by
      rw [List.filter_append, hnil]
      simp [hu]
    rw [hfl]
    have hc1 : (((List.take 50 [u]).length == 1)) = true := by
      simp [List.length_take]
    rw [if_pos hc1, if_pos hk]
    simp only [generateTitle]
    rw [List.filter_append, hfl]
    have hfa : ∀ a : StoredMessage, a.conversationId = cid →
        List.filter (fun m => m.conversationId == cid) [a] = [a] := by
      intro a ha
      simp [List.filter, ha]
    rw [hfa _ rfl]
    have hfu : ∀ x : StoredMessage, List.find? (fun m => m.role == Role.user)
        (List.take 2 ([u] ++ [x])) = some u := by
      intro x
      simp [hu, List.find?]
    rw [if_neg (by simp), hfu]
    simp only [updateConversation]
    rw [find?_map_set_title, hfind]
    simp [hu]
  · have hfl2 : List.filter (fun m => m.conversationId == cid)
        (db.messages ++ [u]) =
        List.filter (fun m => m.conversationId == cid) db.messages ++ [u] := by
      rw [List.filter_append]
      simp [hu]
    have hlen : (((List.take 50 (List.filter (fun m => m.conversationId == cid)
        (db.messages ++ [u]))).length == 1)) = false := by
      rw [hfl2]
      simp only [List.length_take, List.length_append, List.length_singleton,
        beq_eq_false_iff_ne, ne_eq]
      omega
    rw [if_neg (by simp only [hlen]; exact Bool.false_ne_true), if_neg hk]
    exact hfind

/-- Witness for `streamChat_title_first_exchange`: a first exchange on a
fresh existing conversation sets the verbatim title even though the
responder failed. -/
theorem streamChat_title_first_exchange_witness :
    (streamChat ⟨[⟨0, "u", none⟩], [], 1⟩ ⟨"u", some 0, "Where is my order?"⟩
        (.error "capability down")
        (fun _ => ⟨[], [], none⟩)).2.conversations.find?
        (fun x => x.id == 0) =
      some ⟨0, "u", some "Where is my order?"⟩ :=
  (streamChat_title_first_exchange ⟨[⟨0, "u", none⟩], [], 1⟩
    ⟨"u", some 0, "Where is my order?"⟩ (.error "capability down")
    (fun _ => ⟨[], [], none⟩) 0 ⟨0, "u", none⟩ rfl rfl).trans (by decide)

/-! ## C1, C2: terminal-event discipline and error-path persistence -/

theorem route_ok_shape (msgs : List CoreMessage) (tcs : List RouteToolCall) :
    ∃ ar, route msgs (.ok tcs) = .ok ar := by
  rcases hf : msgs.reverse.find? (fun m => m.role == Role.user) with _ | m
  · exact ⟨(.support,
      ⟨.support, 1, "No user message found, defaulting to support"⟩),
      by simp [route, hf]⟩
  · rcases htc : tcs.head? with _ | tc
    · exact ⟨(.support,
        ⟨.support, 1/2, "Could not determine intent, defaulting to support"⟩),
        by simp [route, hf, htc]⟩
    · by_cases hb : (tc.toolName == "route") = true
      · exact ⟨(tc.args.agent, tc.args), by simp [route, hf, htc, hb]⟩
      · exact ⟨(.support,
          ⟨.support, 1/2, "Could not determine intent, defaulting to support"⟩),
          by simp [route, hf, htc, hb]⟩

theorem responderEvents_counts (o : StreamOutcome) (hfail : o.fails = none) :
    ((responderEvents o).filter
        (fun e => e.etype == EventType.done)).length = 1 ∧
    ((responderEvents o).filter
        (fun e => e.etype == EventType.error)).length = 0 := by
  have hre : responderEvents o = (streamLoop o.parts "").1 ++
      [Event.agentDone (streamLoop o.parts "").2 o.stepToolCalls] := by
    unfold responderEvents streamResponse
    rw [hfail]
  have hfilters : ∀ t : EventType, t ≠ EventType.tool_call →
      t ≠ EventType.tool_result → t ≠ EventType.text_delta →
      (streamLoop o.parts "").1.filter (fun e => e.etype == t) = [] := by
    intro t h1 h2 h3
    rw [List.filter_eq_nil_iff]
    intro e he
    rcases streamLoop_shape o.parts "" e he with h4 | h4 | h4
    · simp only [h4, beq_iff_eq]; exact Ne.symm h1
    · simp only [h4, beq_iff_eq]; exact Ne.symm h2
    · simp only [h4, beq_iff_eq]; exact Ne.symm h3
  constructor
  · rw [hre, List.filter_append, hfilters _ (by decide) (by decide) (by decide)]
    simp [Event.etype]
  · rw [hre, List.filter_append, hfilters _ (by decide) (by decide) (by decide)]
    simp [Event.etype]

theorem processMessage_ok_counts (ctx : AgentContext) (tcs : List RouteToolCall)
    (streamO : AgentType → StreamOutcome)
    (hs : ∀ a, (streamO a).fails = none) :
    ((processMessage ctx (.ok tcs) streamO).filter
        (fun e => e.etype == EventType.done)).length = 1 ∧
    ((processMessage ctx (.ok tcs) streamO).filter
        (fun e => e.etype == EventType.error)).length = 0 := by
  obtain ⟨⟨agent, routing⟩, hr⟩ := route_ok_shape ctx.messages tcs
  have hpm : processMessage ctx (.ok tcs) streamO =
      Event.thinking "Analyzing your request..." ::
      Event.routing agent (agentName agent) routing.reasoning
        routing.confidence ::
      Event.thinking ("Connecting you with " ++ agentName agent ++ "...") ::
      responderEvents (streamO agent) := by
    unfold processMessage
    rw [hr]
  obtain ⟨hd, he⟩ := responderEvents_counts (streamO agent) (hs agent)
  have hcons : ∀ (t : EventType) (x : Event) (l : List Event),
      (x.etype == t) = false →
      List.filter (fun e => e.etype == t) (x :: l) =
        List.filter (fun e => e.etype == t) l := by
    intro t x l hx
    simp [List.filter, hx]
  constructor
  · rw [hpm,
      hcons EventType.done (Event.thinking "Analyzing your request...") _ rfl,
      hcons EventType.done (Event.routing agent (agentName agent)
        routing.reasoning routing.confidence) _ rfl,
      hcons EventType.done (Event.thinking ("Connecting you with " ++
        agentName agent ++ "...")) _ rfl]
    exact hd
  · rw [hpm,
      hcons EventType.error (Event.thinking "Analyzing your request...") _ rfl,
      hcons EventType.error (Event.routing agent (agentName agent)
        routing.reasoning routing.confidence) _ rfl,
      hcons EventType.error (Event.thinking ("Connecting you with " ++
        agentName agent ++ "...")) _ rfl]
    exact he

/-- C1 amended: every streaming invocation's event sequence ends with the
orchestrator's own terminal `done` event (`finalDone`), whatever the
oracles do — error runs included; and when the constrained routing call
returns (with any tool-call list) and no responder stream fails, the
sequence contains exactly two `done`-typed events — the Delegator's
relayed raw `done` and the orchestrator's own terminal `done` — and no
`error` event. -/
theorem streamChat_done_discipline (db : DB) (input : ChatInput)
    (routeO : RouteOracle) (streamO : AgentType → StreamOutcome) :
    (∃ cid mid ag ft, (streamChat db input routeO streamO).1.getLast? =
      some (Event.finalDone cid mid ag ft)) ∧
    (∀ tcs, routeO = .ok tcs → (∀ a, (streamO a).fails = none) →
      ((streamChat db input routeO streamO).1.filter
          (fun e => e.etype == EventType.done)).length = 2 ∧
      ((streamChat db input routeO streamO).1.filter
          (fun e => e.etype == EventType.error)).length = 0) := by
  constructor
  · cases hcid : input.conversationId with
    | none =>
        simp only [streamChat, hcid, createConversation, addMessage, getMessages]
        exact ⟨_, _, _, _, List.getLast?_concat _⟩
    | some cid =>
        simp only [streamChat, hcid, addMessage, getMessages, List.nil_append]
        exact ⟨_, _, _, _, List.getLast?_concat _⟩
  · intro tcs htcs hs
    subst htcs
    have hfd1 : ∀ (cid mid : Nat) (ag : AgentType) (ft : String),
        (List.filter (fun e => e.etype == EventType.done)
          [Event.finalDone cid mid ag ft]).length = 1 := fun _ _ _ _ => rfl
    have hfd0 : ∀ (cid mid : Nat) (ag : AgentType) (ft : String),
        (List.filter (fun e => e.etype == EventType.error)
          [Event.finalDone cid mid ag ft]).length = 0 := fun _ _ _ _ => rfl
    have htn0 : ∀ (t : EventType) (msg : String) (cid : Nat),
        t ≠ EventType.thinking →
        (List.filter (fun e => e.etype == t)
          [Event.thinkingNewConversation msg cid]).length = 0 := by
      intro t msg cid ht
      have : ((Event.thinkingNewConversation msg cid).etype == t) = false := by
        simp only [Event.etype, beq_eq_false_iff_ne, ne_eq]
        exact Ne.symm ht
      simp [List.filter, this]
    cases hcid : input.conversationId with
    | none =>
        simp only [streamChat, hcid, createConversation, addMessage, getMessages]
        refine ⟨?_, ?_⟩
        · rw [List.filter_append, List.filter_append, List.length_append,
            List.length_append, (processMessage_ok_counts _ tcs streamO hs).1,
            hfd1, htn0 _ _ _ (by decide)]
        · rw [List.filter_append, List.filter_append, List.length_append,
            List.length_append, (processMessage_ok_counts _ tcs streamO hs).2,
            hfd0, htn0 _ _ _ (by decide)]
    | some cid =>
        simp only [streamChat, hcid, addMessage, getMessages, List.nil_append]
        refine ⟨?_, ?_⟩
        · rw [List.filter_append, List.length_append,
            (processMessage_ok_counts _ tcs streamO hs).1, hfd1]
        · rw [List.filter_append, List.length_append,
            (processMessage_ok_counts _ tcs streamO hs).2, hfd0]

/-- C1 counterexample: on a concrete successful run the emitted sequence
contains two `done`-typed events, the Delegator's raw
`done {fullText, toolCalls}` among them — refuting both "exactly one done
event" and "the raw done payload is not passed through". -/
theorem streamChat_double_done_counterexample :
    ((streamChat ⟨[], [], 0⟩ ⟨"u", none, "Hi"⟩
        (.ok [⟨"route", ⟨.billing, 1, "billing intent"⟩⟩])
        (fun _ => ⟨[.textDelta "Hello"], [], none⟩)).1.filter
      (fun e => e.etype == EventType.done)).length = 2 ∧
    Event.agentDone "Hello" [] ∈
      (streamChat ⟨[], [], 0⟩ ⟨"u", none, "Hi"⟩
        (.ok [⟨"route", ⟨.billing, 1, "billing intent"⟩⟩])
        (fun _ => ⟨[.textDelta "Hello"], [], none⟩)).1 := by
  refine ⟨by decide, by decide⟩

/-- Witness for `streamChat_done_discipline` on a concrete run, discharging
the success-path hypotheses. -/
theorem streamChat_done_discipline_witness :
    (∃ cid mid ag ft,
      (streamChat ⟨[], [], 0⟩ ⟨"u", some 0, "Hi"⟩ (.ok [])
          (fun _ => ⟨[], [], none⟩)).1.getLast? =
        some (Event.finalDone cid mid ag ft)) ∧
    ((streamChat ⟨[], [], 0⟩ ⟨"u", some 0, "Hi"⟩ (.ok [])
        (fun _ => ⟨[], [], none⟩)).1.filter
      (fun e => e.etype == EventType.done)).length = 2 :=
  ⟨(streamChat_done_discipline ⟨[], [], 0⟩ ⟨"u", some 0, "Hi"⟩ (.ok [])
      (fun _ => ⟨[], [], none⟩)).1,
   ((streamChat_done_discipline ⟨[], [], 0⟩ ⟨"u", some 0, "Hi"⟩ (.ok [])
      (fun _ => ⟨[], [], none⟩)).2 [] rfl (fun _ => rfl)).1⟩

/-- C2 counterexample: on a concrete run whose routing call raises, the
stream carries an `error` event, yet an assistant message is persisted and
the conversation title is set — refuting "no assistant message and no
conversation title are written". -/
theorem streamChat_error_writes_counterexample :
    ((streamChat ⟨[], [], 0⟩ ⟨"u", none, "Hi"⟩ (.error "model failure")
        (fun _ => ⟨[], [], none⟩)).1.filter
      (fun e => e.etype == EventType.error)).length = 1 ∧
    ((streamChat ⟨[], [], 0⟩ ⟨"u", none, "Hi"⟩ (.error "model failure")
        (fun _ => ⟨[], [], none⟩)).2.messages.filter
      (fun m => m.role == Role.assistant)).length = 1 ∧
    ((streamChat ⟨[], [], 0⟩ ⟨"u", none, "Hi"⟩ (.error "model failure")
        (fun _ => ⟨[], [], none⟩)).2.conversations.map Conversation.title) =
      [some "Hi"] := by
  refine ⟨by decide, by decide, by decide⟩

theorem route_last_user_error (l : List CoreMessage) (msgText emsg : String) :
    route (l ++ [⟨Role.user, msgText⟩]) (.error emsg) = .error emsg := by
  unfold route
  rw [List.reverse_append]
  simp [List.find?]

theorem route_last_user_ok (l : List CoreMessage) (msgText : String)
    (tcs : List RouteToolCall) (tc : RouteToolCall)
    (hhead : tcs.head? = some tc) (hname : tc.toolName = "route") :
    route (l ++ [⟨Role.user, msgText⟩]) (.ok tcs) =
      .ok (tc.args.agent, tc.args) := by
  unfold route
  rw [List.reverse_append]
  simp [List.find?, hhead, hname]

theorem foldl_consume_parts (evs : List Event)
    (h : ∀ e ∈ evs, e.etype = EventType.tool_call ∨
      e.etype = EventType.tool_result ∨ e.etype = EventType.text_delta)
    (st : LoopState) :
    (evs.foldl consumeChunk st).fullResponse =
      st.fullResponse ++ deltasOf evs ∧
    (evs.foldl consumeChunk st).agentType = st.agentType := by
  induction evs generalizing st with
  | nil => simp [deltasOf, String.append_empty]
  | cons e evs ih =>
      have hrest : ∀ x ∈ evs, x.etype = EventType.tool_call ∨
          x.etype = EventType.tool_result ∨ x.etype = EventType.text_delta :=
        fun x hx => h x (List.mem_cons_of_mem e hx)
      have he := h e (List.mem_cons_self e evs)
      cases e with
      | toolCall t a =>
          have hx := ih hrest (consumeChunk st (Event.toolCall t a))
          simpa [consumeChunk, deltasOf] using hx
      | toolResult t v =>
          have hx := ih hrest (consumeChunk st (Event.toolResult t v))
          simpa [consumeChunk, deltasOf] using hx
      | textDelta d =>
          have hx := ih hrest (consumeChunk st (Event.textDelta d))
          simpa [consumeChunk, deltasOf, String.append_assoc] using hx
      | thinking m => rcases he with h1 | h1 | h1 <;> simp [Event.etype] at h1
      | thinkingNewConversation m c =>
          rcases he with h1 | h1 | h1 <;> simp [Event.etype] at h1
      | routing a n r c =>
          rcases he with h1 | h1 | h1 <;> simp [Event.etype] at h1
      | agentDone f t =>
          rcases he with h1 | h1 | h1 <;> simp [Event.etype] at h1
      | finalDone a b c d =>
          rcases he with h1 | h1 | h1 <;> simp [Event.etype] at h1
      | error m => rcases he with h1 | h1 | h1 <;> simp [Event.etype] at h1

theorem generateTitle_messages (db : DB) (cid : Nat) :
    ((generateTitle db cid).2).messages = db.messages := by
  unfold generateTitle updateConversation
  repeat first | rfl | split | dsimp only

theorem streamChat_error_part_i (db : DB) (input : ChatInput)
    (streamO : AgentType → StreamOutcome) (emsg : String)
    (hlen : (db.messages.filter (fun m =>
      m.conversationId == input.conversationId.getD db.nextId)).length < 50) :
    Event.error emsg ∈ (streamChat db input (.error emsg) streamO).1 ∧
    ∃ cid uid,
      (streamChat db input (.error emsg) streamO).2.messages =
        db.messages ++
          [⟨uid, cid, Role.user, input.message, none, none⟩,
           ⟨uid + 1, cid, Role.assistant, "", some .support, none⟩] := by
  cases hcid : input.conversationId with
  | none =>
      rw [hcid, Option.getD_none] at hlen
      simp only [streamChat, hcid, createConversation, addMessage, getMessages]
      set u : StoredMessage :=
        ⟨db.nextId + 1, db.nextId, Role.user, input.message, none, none⟩ with hu
      have hflu : List.filter (fun m => m.conversationId == db.nextId) [u] =
          [u] := by
        simp [hu]
      have htake : (List.filter (fun m => m.conversationId == db.nextId)
          (db.messages ++ [u])).take 50 =
          List.filter (fun m => m.conversationId == db.nextId) db.messages ++
            [u] := by
        rw [List.filter_append, hflu]
        exact List.take_of_length_le (by simp; omega)
      rw [htake]
      have hmap : List.map (fun m => (⟨m.role, m.content⟩ : CoreMessage))
          (List.filter (fun m => m.conversationId == db.nextId) db.messages ++
            [u]) =
          List.map (fun m => (⟨m.role, m.content⟩ : CoreMessage))
            (List.filter (fun m => m.conversationId == db.nextId) db.messages) ++
            [⟨Role.user, input.message⟩] := by
        rw [List.map_append]
        simp [hu]
      rw [hmap]
      have hpm : processMessage ⟨input.userId, db.nextId,
          List.map (fun m => (⟨m.role, m.content⟩ : CoreMessage))
            (List.filter (fun m => m.conversationId == db.nextId) db.messages) ++
            [⟨Role.user, input.message⟩]⟩ (.error emsg) streamO =
          [Event.thinking "Analyzing your request...", Event.error emsg] := by
        unfold processMessage
        rw [route_last_user_error]
      rw [hpm]
      have hst : List.foldl consumeChunk ⟨"", .support, []⟩
          [Event.thinking "Analyzing your request...", Event.error emsg] =
          (⟨"", .support, []⟩ : LoopState) := rfl
      rw [hst]
      refine ⟨by simp, db.nextId, db.nextId + 1, ?_⟩
      rw [apply_ite DB.messages, generateTitle_messages, ite_self]
      simp [hu, List.append_assoc]
  | some c =>
      rw [hcid, Option.getD_some] at hlen
      simp only [streamChat, hcid, addMessage, getMessages]
      set u : StoredMessage :=
        ⟨db.nextId, c, Role.user, input.message, none, none⟩ with hu
      have hflu : List.filter (fun m => m.conversationId == c) [u] = [u] := by
        simp [hu]
      have htake : (List.filter (fun m => m.conversationId == c)
          (db.messages ++ [u])).take 50 =
          List.filter (fun m => m.conversationId == c) db.messages ++ [u] := by
        rw [List.filter_append, hflu]
        exact List.take_of_length_le (by simp; omega)
      rw [htake]
      have hmap : List.map (fun m => (⟨m.role, m.content⟩ : CoreMessage))
          (List.filter (fun m => m.conversationId == c) db.messages ++ [u]) =
          List.map (fun m => (⟨m.role, m.content⟩ : CoreMessage))
            (List.filter (fun m => m.conversationId == c) db.messages) ++
            [⟨Role.user, input.message⟩] := by
        rw [List.map_append]
        simp [hu]
      rw [hmap]
      have hpm : processMessage ⟨input.userId, c,
          List.map (fun m => (⟨m.role, m.content⟩ : CoreMessage))
            (List.filter (fun m => m.conversationId == c) db.messages) ++
            [⟨Role.user, input.message⟩]⟩ (.error emsg) streamO =
          [Event.thinking "Analyzing your request...", Event.error emsg] := by
        unfold processMessage
        rw [route_last_user_error]
      rw [hpm]
      have hst : List.foldl consumeChunk ⟨"", .support, []⟩
          [Event.thinking "Analyzing your request...", Event.error emsg] =
          (⟨"", .support, []⟩ : LoopState) := rfl
      rw [hst]
      refine ⟨by simp, c, db.nextId, ?_⟩
      rw [apply_ite DB.messages, generateTitle_messages, ite_self]
      simp [hu, List.append_assoc]

theorem streamChat_error_part_ii (db : DB) (input : ChatInput)
    (streamO : AgentType → StreamOutcome) (emsg : String)
    (tcs : List RouteToolCall) (tc : RouteToolCall)
    (hhead : tcs.head? = some tc) (hname : tc.toolName = "route")
    (hfail : (streamO tc.args.agent).fails = some emsg)
    (hlen : (db.messages.filter (fun m =>
      m.conversationId == input.conversationId.getD db.nextId)).length < 50) :
    Event.error emsg ∈ (streamChat db input (.ok tcs) streamO).1 ∧
    ∃ cid uid tcOpt,
      (streamChat db input (.ok tcs) streamO).2.messages =
        db.messages ++
          [⟨uid, cid, Role.user, input.message, none, none⟩,
           ⟨uid + 1, cid, Role.assistant,
             deltasOf (streamLoop (streamO tc.args.agent).parts "").1,
             some tc.args.agent, tcOpt⟩] := by
  cases hcid : input.conversationId with
  | none =>
      rw [hcid, Option.getD_none] at hlen
      simp only [streamChat, hcid, createConversation, addMessage, getMessages]
      set u : StoredMessage :=
        ⟨db.nextId + 1, db.nextId, Role.user, input.message, none, none⟩ with hu
      have hflu : List.filter (fun m => m.conversationId == db.nextId) [u] =
          [u] := by
        simp [hu]
      have htake : (List.filter (fun m => m.conversationId == db.nextId)
          (db.messages ++ [u])).take 50 =
          List.filter (fun m => m.conversationId == db.nextId) db.messages ++
            [u] := by
        rw [List.filter_append, hflu]
        exact List.take_of_length_le (by simp; omega)
      rw [htake]
      have hmap : List.map (fun m => (⟨m.role, m.content⟩ : CoreMessage))
          (List.filter (fun m => m.conversationId == db.nextId) db.messages ++
            [u]) =
          List.map (fun m => (⟨m.role, m.content⟩ : CoreMessage))
            (List.filter (fun m => m.conversationId == db.nextId) db.messages) ++
            [⟨Role.user, input.message⟩] := by
        rw [List.map_append]
        simp [hu]
      rw [hmap]
      have hpm : processMessage ⟨input.userId, db.nextId,
          List.map (fun m => (⟨m.role, m.content⟩ : CoreMessage))
            (List.filter (fun m => m.conversationId == db.nextId) db.messages) ++
            [⟨Role.user, input.message⟩]⟩ (.ok tcs) streamO =
          Event.thinking "Analyzing your request..." ::
          Event.routing tc.args.agent (agentName tc.args.agent)
            tc.args.reasoning tc.args.confidence ::
          Event.thinking ("Connecting you with " ++ agentName tc.args.agent ++
            "...") ::
          responderEvents (streamO tc.args.agent) := by
        unfold processMessage
        rw [route_last_user_ok _ _ tcs tc hhead hname]
      rw [hpm]
      have hre : responderEvents (streamO tc.args.agent) =
          (streamLoop (streamO tc.args.agent).parts "").1 ++
            [Event.error emsg] := by
        unfold responderEvents streamResponse
        rw [hfail]
      rw [hre]
      set evs := (streamLoop (streamO tc.args.agent).parts "").1 with hevs
      have hst1 : List.foldl consumeChunk ⟨"", .support, []⟩
          (Event.thinking "Analyzing your request..." ::
           Event.routing tc.args.agent (agentName tc.args.agent)
             tc.args.reasoning tc.args.confidence ::
           Event.thinking ("Connecting you with " ++ agentName tc.args.agent ++
             "...") ::
           (evs ++ [Event.error emsg])) =
          List.foldl consumeChunk ⟨"", tc.args.agent, []⟩
            (evs ++ [Event.error emsg]) := rfl
      have hst2 : List.foldl consumeChunk
          (⟨"", tc.args.agent, []⟩ : LoopState) (evs ++ [Event.error emsg]) =
          List.foldl consumeChunk ⟨"", tc.args.agent, []⟩ evs := by
        rw [List.foldl_append]
        rfl
      rw [hst1, hst2]
      have hfold := foldl_consume_parts evs
        (by rw [hevs]; exact streamLoop_shape (streamO tc.args.agent).parts "")
        ⟨"", tc.args.agent, []⟩
      rw [hfold.1, hfold.2, String.empty_append]
      refine ⟨by simp, db.nextId, db.nextId + 1,
        (if ((List.foldl consumeChunk (⟨"", tc.args.agent, []⟩ : LoopState)
            evs).toolCalls.filter (fun t => t.tool != "")).length > 0 then
          some (List.foldl consumeChunk (⟨"", tc.args.agent, []⟩ : LoopState)
            evs).toolCalls
        else none), ?_⟩
      rw [apply_ite DB.messages, generateTitle_messages, ite_self]
      simp [hu, List.append_assoc]
  | some c =>
      rw [hcid, Option.getD_some] at hlen
      simp only [streamChat, hcid, addMessage, getMessages]
      set u : StoredMessage :=
        ⟨db.nextId, c, Role.user, input.message, none, none⟩ with hu
      have hflu : List.filter (fun m => m.conversationId == c) [u] = [u] := by
        simp [hu]
      have htake : (List.filter (fun m => m.conversationId == c)
          (db.messages ++ [u])).take 50 =
          List.filter (fun m => m.conversationId == c) db.messages ++ [u] := by
        rw [List.filter_append, hflu]
        exact List.take_of_length_le (by simp; omega)
      rw [htake]
      have hmap : List.map (fun m => (⟨m.role, m.content⟩ : CoreMessage))
          (List.filter (fun m => m.conversationId == c) db.messages ++ [u]) =
          List.map (fun m => (⟨m.role, m.content⟩ : CoreMessage))
            (List.filter (fun m => m.conversationId == c) db.messages) ++
            [⟨Role.user, input.message⟩] := by
        rw [List.map_append]
        simp [hu]
      rw [hmap]
      have hpm : processMessage ⟨input.userId, c,
          List.map (fun m => (⟨m.role, m.content⟩ : CoreMessage))
            (List.filter (fun m => m.conversationId == c) db.messages) ++
            [⟨Role.user, input.message⟩]⟩ (.ok tcs) streamO =
          Event.thinking "Analyzing your request..." ::
          Event.routing tc.args.agent (agentName tc.args.agent)
            tc.args.reasoning tc.args.confidence ::
          Event.thinking ("Connecting you with " ++ agentName tc.args.agent ++
            "...") ::
          responderEvents (streamO tc.args.agent) := by
        unfold processMessage
        rw [route_last_user_ok _ _ tcs tc hhead hname]
      rw [hpm]
      have hre : responderEvents (streamO tc.args.agent) =
          (streamLoop (streamO tc.args.agent).parts "").1 ++
            [Event.error emsg] := by
        unfold responderEvents streamResponse
        rw [hfail]
      rw [hre]
      set evs := (streamLoop (streamO tc.args.agent).parts "").1 with hevs
      have hst1 : List.foldl consumeChunk ⟨"", .support, []⟩
          (Event.thinking "Analyzing your request..." ::
           Event.routing tc.args.agent (agentName tc.args.agent)
             tc.args.reasoning tc.args.confidence ::
           Event.thinking ("Connecting you with " ++ agentName tc.args.agent ++
             "...") ::
           (evs ++ [Event.error emsg])) =
          List.foldl consumeChunk ⟨"", tc.args.agent, []⟩
            (evs ++ [Event.error emsg]) := rfl
      have hst2 : List.foldl consumeChunk
          (⟨"", tc.args.agent, []⟩ : LoopState) (evs ++ [Event.error emsg]) =
          List.foldl consumeChunk ⟨"", tc.args.agent, []⟩ evs := by
        rw [List.foldl_append]
        rfl
      rw [hst1, hst2]
      have hfold := foldl_consume_parts evs
        (by rw [hevs]; exact streamLoop_shape (streamO tc.args.agent).parts "")
        ⟨"", tc.args.agent, []⟩
      rw [hfold.1, hfold.2, String.empty_append]
      refine ⟨by simp, c, db.nextId,
        (if ((List.foldl consumeChunk (⟨"", tc.args.agent, []⟩ : LoopState)
            evs).toolCalls.filter (fun t => t.tool != "")).length > 0 then
          some (List.foldl consumeChunk (⟨"", tc.args.agent, []⟩ : LoopState)
            evs).toolCalls
        else none), ?_⟩
      rw [apply_ite DB.messages, generateTitle_messages, ite_self]
      simp [hu, List.append_assoc]

theorem streamChat_fresh_title (db : DB) (input : ChatInput)
    (routeO : RouteOracle) (streamO : AgentType → StreamOutcome)
    (hcid : input.conversationId = none)
    (hwf : ∀ m ∈ db.messages, m.conversationId ≠ db.nextId) :
    (streamChat db input routeO streamO).2.conversations.getLast? =
      some ⟨db.nextId, input.userId,
        some (if input.message.length > 50
          then input.message.take 47 ++ "..." else input.message)⟩ := by
  simp only [streamChat, hcid, createConversation, addMessage, getMessages]
  set u : StoredMessage :=
    ⟨db.nextId + 1, db.nextId, Role.user, input.message, none, none⟩ with hu
  have hnil : db.messages.filter (fun m => m.conversationId == db.nextId) =
      [] := by
    rw [List.filter_eq_nil_iff]
    intro m hm
    simpa using hwf m hm
  have hfl : List.filter (fun m => m.conversationId == db.nextId)
      (db.messages ++ [u]) = [u] := by
    rw [List.filter_append, hnil]
    simp [hu]
  rw [hfl]
  have hc1 : (((List.take 50 [u]).length == 1)) = true := by
    simp [List.length_take]
  rw [if_pos hc1]
  simp only [generateTitle, updateConversation]
  simp [hu, hnil, List.find?, List.map_append, List.getLast?_concat,
    List.append_assoc]

/-- C2 amended: when responder or delegator execution fails (the run carries
a terminal `error` event), the user's message appended before delegation
remains persisted, but an assistant message is ALSO persisted immediately
after it — with empty content and the default support tag when the routing
call itself raised, and with the partial accumulated text and the routed
agent's tag when the responder stream failed after the routing event; and
on a fresh (newly created) conversation the first-exchange title is still
derived and persisted from the user message. The `< 50` bound keeps the
just-appended user message inside the `take: 50` history window the source
hands to the Delegator, so that classification sees a user message. -/
theorem streamChat_error_still_persists (db : DB) (input : ChatInput)
    (routeO : RouteOracle) (streamO : AgentType → StreamOutcome)
    (emsg : String) :
    (routeO = .error emsg →
      (db.messages.filter (fun m =>
        m.conversationId == input.conversationId.getD db.nextId)).length < 50 →
      Event.error emsg ∈ (streamChat db input routeO streamO).1 ∧
      ∃ cid uid,
        (streamChat db input routeO streamO).2.messages =
          db.messages ++
            [⟨uid, cid, Role.user, input.message, none, none⟩,
             ⟨uid + 1, cid, Role.assistant, "", some .support, none⟩]) ∧
    (∀ tcs tc, routeO = .ok tcs → tcs.head? = some tc →
      tc.toolName = "route" → (streamO tc.args.agent).fails = some emsg →
      (db.messages.filter (fun m =>
        m.conversationId == input.conversationId.getD db.nextId)).length < 50 →
      Event.error emsg ∈ (streamChat db input routeO streamO).1 ∧
      ∃ cid uid tcOpt,
        (streamChat db input routeO streamO).2.messages =
          db.messages ++
            [⟨uid, cid, Role.user, input.message, none, none⟩,
             ⟨uid + 1, cid, Role.assistant,
               deltasOf (streamLoop (streamO tc.args.agent).parts "").1,
               some tc.args.agent, tcOpt⟩]) ∧
    (input.conversationId = none →
      (∀ m ∈ db.messages, m.conversationId ≠ db.nextId) →
      (streamChat db input routeO streamO).2.conversations.getLast? =
        some ⟨db.nextId, input.userId,
          some (if input.message.length > 50
            then input.message.take 47 ++ "..." else input.message)⟩) := by
  refine ⟨?_, ?_, ?_⟩
  · intro hr hlen
    subst hr
    exact streamChat_error_part_i db input streamO emsg hlen
  · intro tcs tc h1 h2 h3 h4 h5
    subst h1
    exact streamChat_error_part_ii db input streamO emsg tcs tc h2 h3 h4 h5
  · intro h1 h2
    exact streamChat_fresh_title db input routeO streamO h1 h2

/-- Witness for `streamChat_error_still_persists`, exercising the
routing-failure case, the responder-failure case (routed to billing), and
the fresh-conversation title clause. -/
theorem streamChat_error_still_persists_witness :
    (∃ cid uid,
      (streamChat ⟨[], [], 0⟩ ⟨"u", none, "Help me"⟩ (.error "boom")
          (fun _ => ⟨[], [], none⟩)).2.messages =
        ([] : List StoredMessage) ++
          [⟨uid, cid, Role.user, "Help me", none, none⟩,
           ⟨uid + 1, cid, Role.assistant, "", some .support, none⟩]) ∧
    (∃ cid uid tcOpt,
      (streamChat ⟨[], [], 0⟩ ⟨"u", none, "Help me"⟩
          (.ok [⟨"route", ⟨.billing, 1, "r"⟩⟩])
          (fun _ => ⟨[.textDelta "So"], [], some "boom"⟩)).2.messages =
        ([] : List StoredMessage) ++
          [⟨uid, cid, Role.user, "Help me", none, none⟩,
           ⟨uid + 1, cid, Role.assistant,
             deltasOf (streamLoop [.textDelta "So"] "").1,
             some AgentType.billing, tcOpt⟩]) ∧
    (streamChat ⟨[], [], 0⟩ ⟨"u", none, "Help me"⟩ (.error "boom")
        (fun _ => ⟨[], [], none⟩)).2.conversations.getLast? =
      some ⟨0, "u", some "Help me"⟩ :=
  ⟨((streamChat_error_still_persists ⟨[], [], 0⟩ ⟨"u", none, "Help me"⟩
      (.error "boom") (fun _ => ⟨[], [], none⟩) "boom").1 rfl (by decide)).2,
   ((streamChat_error_still_persists ⟨[], [], 0⟩ ⟨"u", none, "Help me"⟩
      (.ok [⟨"route", ⟨.billing, 1, "r"⟩⟩])
      (fun _ => ⟨[.textDelta "So"], [], some "boom"⟩) "boom").2.1
      [⟨"route", ⟨.billing, 1, "r"⟩⟩] ⟨"route", ⟨.billing, 1, "r"⟩⟩
      rfl rfl rfl rfl (by decide)).2,
   (streamChat_error_still_persists ⟨[], [], 0⟩ ⟨"u", none, "Help me"⟩
      (.error "boom") (fun _ => ⟨[], [], none⟩) "boom").2.2 rfl
      (fun m hm => absurd hm (List.not_mem_nil m))⟩

end Tiger
